import Mathlib

/-
Verification development for the CustomerSupportBot repository.

The repository ships a browser front-end (frontend/js/main.js) for a
retrieval-augmented customer-support chat service.  The front-end event
handlers are embedded below as pure Lean functions over explicit state:
DOM state that a handler reads or writes becomes a structure field, and a
handler's network effect becomes an explicit request value in its result.
The back-end components (Vector Store, Retrieval Engine, Generation
Orchestrator) are AWS Lambda code that is not part of the repository
checkout; where a property concerns them they are modelled from the
specification's contract, with a doc comment saying so.
-/

/-! ## JavaScript string semantics

Helpers mirroring the JavaScript string primitives used by main.js:
`String.prototype.trim`, `toLowerCase`, `substring`, `lastIndexOf`,
`split`, and the `x || default` idiom on possibly-missing strings. -/

/-- Characters removed by JavaScript `String.prototype.trim` (the common
WhiteSpace and LineTerminator code points). -/
def jsWhite (c : Char) : Bool :=
  c = ' ' || c = '\t' || c = '\n' || c = '\r' || c = '\x0b' || c = '\x0c' ||
  c = '\u00A0' || c = '\uFEFF'

/-- JavaScript `s.trim()`: strip leading and trailing whitespace. -/
def jsTrim (s : String) : String :=
  ⟨((s.data.dropWhile jsWhite).reverse.dropWhile jsWhite).reverse⟩

/-- JavaScript `s.toLowerCase()` (ASCII-adequate for the extensions used). -/
def jsToLower (s : String) : String :=
  ⟨s.data.map Char.toLower⟩

/-- JavaScript `s.substring(i)`: a negative start index is clamped to 0. -/
def jsSubstringFrom (s : String) (i : Int) : String :=
  ⟨s.data.drop (max i 0).toNat⟩

/-- JavaScript `s.lastIndexOf(c)`: index of the last occurrence of `c`,
or -1 when absent. -/
def jsLastIndexOfChar (s : String) (c : Char) : Int :=
  match s.data.reverse.findIdx? fun x => x = c with
  | none => -1
  | some j => ((s.data.length - 1 - j : Nat) : Int)

/-- JavaScript `s.split(sep)` on a character separator, over char lists. -/
def splitChar (sep : Char) : List Char → List (List Char)
  | [] => [[]]
  | c :: cs =>
    if c = sep then [] :: splitChar sep cs
    else
      match splitChar sep cs with
      | [] => [[c]]
      | h :: t => (c :: h) :: t

/-- The JavaScript idiom `x || d` applied to a string-valued field that may
be absent (`none`) or empty (both falsy). -/
def jsOrDefault (o : Option String) (d : String) : String :=
  match o with
  | none => d
  | some s => if s = "" then d else s

/-! ## Chat path (main.js `sendMessage`, lines 55-100)

`sendMessage` trims the input; a falsy (empty) result returns without any
effect.  Otherwise it appends the user message to the transcript, clears
the input, and POSTs `{message, session_id}` to the chat endpoint.  The
response callback shows `data.response` when `data.success` is true and
`Error: <data.error or default>` otherwise; the fetch rejection handler
shows a fixed apology message. -/

/-- Body of the POST to `/api/chat` (main.js lines 75-78). -/
structure ChatRequest where
  message : String
  session_id : String
deriving DecidableEq

/-- The chat-widget state `sendMessage` reads and writes: the input field
value and the transcript of (sender, content) messages. -/
structure ChatState where
  inputValue : String
  transcript : List (String × String)
deriving DecidableEq

/-- main.js lines 15-16: `sessionId = 'session_' + Math.random().toString(36).substring(2, 15)`;
the random base-36 part is the parameter `r`, fixed once per page load. -/
def mkSessionId (r : String) : String :=
  "session_" ++ r

/-- main.js `sendMessage` (lines 55-79), as a state transition that also
reports the request it sends, if any. -/
def sendMessage (sid : String) (st : ChatState) : ChatState × Option ChatRequest :=
  let message := jsTrim st.inputValue
  if message = "" then (st, none)
  else
    ({ inputValue := "", transcript := st.transcript ++ [("user", message)] },
     some ⟨message, sid⟩)

/-- Shape of the chat endpoint's JSON reply; `error` may be absent. -/
structure ChatResponse where
  success : Bool
  response : String
  error : Option String
deriving DecidableEq

/-- main.js lines 86-90: the bot message displayed for a parsed reply. -/
def chatResponseMessage (data : ChatResponse) : String :=
  if data.success then data.response
  else "Error: " ++ jsOrDefault data.error "Unknown error occurred"

/-- main.js line 97: the fixed apology shown when the fetch chain rejects. -/
def chatFailureMessage : String :=
  "I\x27m sorry, there was an error processing your request. Please try again later."

/-- Outcome of the chat fetch: a parsed JSON reply, or a rejected promise
(network/parse failure). -/
inductive FetchOutcome where
  | ok (data : ChatResponse)
  | failure
deriving DecidableEq

/-- The bot message the user sees for each fetch outcome
(main.js lines 80-99: `.then` / `.catch`). -/
def displayedBotMessage : FetchOutcome → String
  | FetchOutcome.ok data => chatResponseMessage data
  | FetchOutcome.failure => chatFailureMessage

/-! ## Health check (main.js `checkHealth`, lines 294-307)

`init()` (line 40) calls `checkHealth()` on page load; the handler adds a
warning bot message exactly when `data.status !== 'healthy'`. -/

/-- main.js line 301: the warning added when the service is not healthy. -/
def healthWarning : String :=
  "Warning: Some services may not be functioning properly. Your experience might be affected."

/-- main.js lines 297-303: the bot message (if any) added for a health
reply with the given `status` field. -/
def checkHealthHandler (status : String) : Option String :=
  if status ≠ "healthy" then some healthWarning else none

/-! ## Upload path (main.js `handleFileSelect` lines 171-187 and
`uploadDocument` lines 190-257) -/

/-- Body of the POST to `/api/upload` (main.js lines 218-221). -/
structure UploadRequest where
  file : String
  filename : String
deriving DecidableEq

/-- The upload-modal state touched by `handleFileSelect`: the status
label's text and CSS class, and the confirm button's disabled flag. -/
structure UploadUIState where
  statusText : String
  statusCss : String
  confirmDisabled : Bool
deriving DecidableEq

/-- main.js line 175. -/
def validTypes : List String :=
  [".pdf", ".txt", ".docx"]

/-- main.js line 179. -/
def invalidTypeMessage : String :=
  "Invalid file type. Please select a PDF, TXT, or DOCX file."

/-- main.js line 176: `file.name.substring(file.name.lastIndexOf('.')).toLowerCase()`. -/
def fileExtensionOf (name : String) : String :=
  jsToLower (jsSubstringFrom name (jsLastIndexOfChar name '.'))

/-- main.js `handleFileSelect` (lines 171-187): reacts to a file-input
change with the selected file's name (`none` when no file).  It sends no
network request, hence the always-empty request list in the result. -/
def handleFileSelect (st : UploadUIState) (fileName : Option String) :
    UploadUIState × List UploadRequest :=
  match fileName with
  | none => (st, [])
  | some name =>
    let ext := fileExtensionOf name
    if ext ∈ validTypes then
      (⟨"Selected file: " ++ name, "", false⟩, [])
    else
      ({ st with statusText := invalidTypeMessage, statusCss := "text-error" }, [])

/-- main.js line 210: `e.target.result.split(',')[1]` — the segment of the
FileReader data URL between the first and second comma. -/
def dataUrlPayload (dataUrl : String) : String :=
  ⟨(splitChar ',' dataUrl.data).getD 1 []⟩

/-- main.js lines 210-221: the upload request built from the FileReader
data URL and the original file name. -/
def uploadRequestOf (dataUrl fileName : String) : UploadRequest :=
  ⟨dataUrlPayload dataUrl, fileName⟩

/-- main.js lines 224-239: the status text displayed for a parsed upload
reply (`message` and `error` may be absent or empty). -/
def uploadResponseStatus (success : Bool) (message error : Option String) : String :=
  if success then jsOrDefault message "Document uploaded successfully!"
  else "Error: " ++ jsOrDefault error "Unknown error"

/-! ## Supporting lemmas about the JS helpers -/

theorem mk_data_eq (s : String) : (⟨s.data⟩ : String) = s := by
  cases s
  rfl

theorem splitChar_of_not_mem (sep : Char) (l : List Char) (h : sep ∉ l) :
    splitChar sep l = [l] := by
  induction l with
  | nil => rfl
  | cons c cs ih =>
    have hc : ¬ c = sep := fun e => h (by rw [e]; exact List.mem_cons_self _ _)
    have hcs : sep ∉ cs := fun m => h (List.mem_cons_of_mem _ m)
    simp [splitChar, hc, ih hcs]

theorem splitChar_append (sep : Char) (pre payload : List Char) (h : sep ∉ pre) :
    splitChar sep (pre ++ sep :: payload) = pre :: splitChar sep payload := by
  induction pre with
  | nil => simp [splitChar]
  | cons c cs ih =>
    have hc : ¬ c = sep := fun e => h (by rw [e]; exact List.mem_cons_self _ _)
    have hcs : sep ∉ cs := fun m => h (List.mem_cons_of_mem _ m)
    simp [splitChar, hc, ih hcs]

theorem dataUrlPayload_eq (pre payload : String)
    (h1 : ',' ∉ pre.data) (h2 : ',' ∉ payload.data) :
    dataUrlPayload (pre ++ "," ++ payload) = payload := by
  unfold dataUrlPayload
  have hd : (pre ++ "," ++ payload).data = pre.data ++ ',' :: payload.data := by
    rw [String.data_append, String.data_append]
    simp
  rw [hd, splitChar_append _ _ _ h1, splitChar_of_not_mem _ _ h2]
  exact mk_data_eq payload

/-! ## Claims about the chat path -/

/-- Claim C9: for every chat input whose trimmed value is empty (empty or
whitespace-only), `sendMessage` is a no-op — no HTTP request is sent, no
message is added to the transcript, and the input field is unchanged. -/
theorem sendMessage_empty_noop (sid : String) (st : ChatState)
    (h : jsTrim st.inputValue = "") : sendMessage sid st = (st, none) := by
  simp [sendMessage, h]

theorem sendMessage_empty_noop_witness :
    sendMessage "session_abc" ⟨" \n  ", []⟩ = (⟨" \n  ", []⟩, none) :=
  sendMessage_empty_noop "session_abc" ⟨" \n  ", []⟩ (by decide)

/-- Claim C6: for every non-empty message submitted, the chat client sends
a POST whose JSON body is exactly the (message, session_id) pair; on a
reply with success true it displays the response field as a bot message,
and on success false it displays a message derived from the error field. -/
theorem sendMessage_contract (sid : String) (st : ChatState)
    (h : jsTrim st.inputValue ≠ "") :
    (sendMessage sid st).2 = some ⟨jsTrim st.inputValue, sid⟩ ∧
    (sendMessage sid st).1.transcript = st.transcript ++ [("user", jsTrim st.inputValue)] ∧
    (∀ d : ChatResponse, d.success = true → chatResponseMessage d = d.response) ∧
    (∀ d : ChatResponse, d.success = false →
      chatResponseMessage d = "Error: " ++ jsOrDefault d.error "Unknown error occurred") := by
  refine ⟨?_, ?_, ?_, ?_⟩
  · simp [sendMessage, h]
  · simp [sendMessage, h]
  · intro d hd
    simp [chatResponseMessage, hd]
  · intro d hd
    simp [chatResponseMessage, hd]

theorem sendMessage_contract_witness :
    (sendMessage "session_k" ⟨" hello ", []⟩).2 = some ⟨"hello", "session_k"⟩ :=
  (sendMessage_contract "session_k" ⟨" hello ", []⟩ (by decide)).1

/-- Claim C10: a single session identifier of the form `session_` followed
by the page's random base-36 string is generated once per page load, and
every chat request sent during that page session carries this same
session_id value. -/
theorem sessionId_stable (r : String) :
    (∃ t, mkSessionId r = "session_" ++ t) ∧
    ∀ (st : ChatState) (req : ChatRequest),
      (sendMessage (mkSessionId r) st).2 = some req → req.session_id = mkSessionId r := by
  refine ⟨⟨r, rfl⟩, ?_⟩
  intro st req hreq
  unfold sendMessage at hreq
  by_cases h : jsTrim st.inputValue = ""
  · simp [h] at hreq
  · simp only [h, if_false] at hreq
    simp only [Option.some.injEq] at hreq
    rw [← hreq]

theorem sessionId_stable_witness :
    (⟨"hi", mkSessionId "k3j2ha9q"⟩ : ChatRequest).session_id = mkSessionId "k3j2ha9q" :=
  (sessionId_stable "k3j2ha9q").2 ⟨"hi", []⟩ ⟨"hi", mkSessionId "k3j2ha9q"⟩ (by decide)

/-- Claim C5 counterexample: a chat reply with success false and a raw
error payload is displayed to the user as `Error: <payload>` — the raw
detail is propagated verbatim and the message is not the apology text. -/
theorem chat_error_detail_cex :
    (ChatResponse.mk false "" (some "boom")).success = false ∧
    displayedBotMessage (FetchOutcome.ok ⟨false, "", some "boom"⟩) = "Error: boom" ∧
    displayedBotMessage (FetchOutcome.ok ⟨false, "", some "boom"⟩) ≠ chatFailureMessage := by
  exact ⟨rfl, by decide, by decide⟩

/-- Claim C5 (amended): a failed chat interaction never crashes — both
failure paths are handled.  A rejected fetch displays the fixed apology
message (independent of any error detail), while a reply with success
false displays `Error: ` followed by the reply's error field (or the
default text when it is absent or empty). -/
theorem chat_failure_display (d : ChatResponse) (h : d.success = false) :
    displayedBotMessage FetchOutcome.failure = chatFailureMessage ∧
    displayedBotMessage (FetchOutcome.ok d) =
      "Error: " ++ jsOrDefault d.error "Unknown error occurred" := by
  refine ⟨rfl, ?_⟩
  simp [displayedBotMessage, chatResponseMessage, h]

theorem chat_failure_display_witness :
    displayedBotMessage FetchOutcome.failure = chatFailureMessage :=
  (chat_failure_display ⟨false, "", none⟩ rfl).1

/-! ## Claims about the health check -/

/-- Claim C8: for every health reply whose status field is not `healthy`
a warning bot message is added to the chat, and when the status is exactly
`healthy` no warning message is added. -/
theorem checkHealth_warning (s : String) (h : s ≠ "healthy") :
    checkHealthHandler s = some healthWarning ∧ checkHealthHandler "healthy" = none := by
  refine ⟨?_, ?_⟩
  · simp [checkHealthHandler, h]
  · simp [checkHealthHandler]

theorem checkHealth_warning_witness :
    checkHealthHandler "degraded" = some healthWarning ∧
    checkHealthHandler "healthy" = none :=
  checkHealth_warning "degraded" (by decide)

/-! ## Claims about the upload path -/

/-- Claim C4 counterexample: selecting a file with an unsupported
extension while the confirm button is enabled (as after a prior valid
selection) leaves the button enabled — `handleFileSelect` never disables
it, so the claim that the confirm button stays disabled is false. -/
theorem handleFileSelect_disabled_cex :
    ¬ ∀ (st : UploadUIState) (name : String),
        fileExtensionOf name ∉ validTypes →
        (handleFileSelect st (some name)).1.confirmDisabled = true := by
  intro hclaim
  have h := hclaim ⟨"Selected file: guide.pdf", "", false⟩ "notes.exe" (by decide)
  exact absurd h (by decide)

/-- Claim C4 (amended): for every selected file whose lowercased filename
extension is not one of .pdf, .txt, .docx, the selection handler shows the
invalid-type error message, sends no upload request, and does not enable
the confirm button — its disabled flag is left exactly as it was (so it
stays disabled only when it was already disabled). -/
theorem handleFileSelect_invalid_rejected (st : UploadUIState) (name : String)
    (h : fileExtensionOf name ∉ validTypes) :
    handleFileSelect st (some name) =
      ({ st with statusText := invalidTypeMessage, statusCss := "text-error" }, []) ∧
    (handleFileSelect st (some name)).1.confirmDisabled = st.confirmDisabled := by
  refine ⟨?_, ?_⟩ <;> simp [handleFileSelect, h]

theorem handleFileSelect_invalid_rejected_witness :
    handleFileSelect ⟨"", "", true⟩ (some "notes.exe") =
      (⟨invalidTypeMessage, "text-error", true⟩, []) :=
  (handleFileSelect_invalid_rejected ⟨"", "", true⟩ "notes.exe" (by decide)).1

/-- Claim C7: for every confirmed upload, the client sends a POST whose
JSON body is exactly the (file, filename) pair, where file is the base64
payload of the FileReader data URL (the part after the comma) and
filename is the original file name; a success reply displays its message
and a failure reply displays its error. -/
theorem uploadDocument_contract (pre payload fileName : String) (m e : Option String)
    (h1 : ',' ∉ pre.data) (h2 : ',' ∉ payload.data) :
    uploadRequestOf (pre ++ "," ++ payload) fileName = ⟨payload, fileName⟩ ∧
    (∀ msg, msg ≠ "" → uploadResponseStatus true (some msg) e = msg) ∧
    (∀ err, err ≠ "" → uploadResponseStatus false m (some err) = "Error: " ++ err) := by
  refine ⟨?_, ?_, ?_⟩
  · unfold uploadRequestOf
    rw [dataUrlPayload_eq pre payload h1 h2]
  · intro msg hm
    simp [uploadResponseStatus, jsOrDefault, hm]
  · intro err he
    simp [uploadResponseStatus, jsOrDefault, he]

theorem uploadDocument_contract_witness :
    uploadRequestOf ("data:text/plain;base64" ++ "," ++ "SGVsbG8=") "faq.txt" =
      ⟨"SGVsbG8=", "faq.txt"⟩ :=
  (uploadDocument_contract "data:text/plain;base64" "SGVsbG8=" "faq.txt" none none
    (by decide) (by decide)).1

/-! ## Vector Store query (modelled from the spec)

The Vector Store, Retrieval Engine and the rest of the RAG back-end are
AWS Lambda functions not present in the repository checkout; the following
definitions are modelled from the specification's contract for them. -/

/-- Modelled from the spec: the Vector Store's per-chunk record —
`(document_id, ordinal, text, vector)` plus the ingestion timestamp used
for deterministic tie-breaking. -/
structure StoredChunk where
  document_id : String
  ordinal : Nat
  text : String
  vec : List ℚ
  timestamp : Nat
deriving DecidableEq

/-- Modelled from the spec: one entry of a ranked retrieval result — a
chunk reference together with its similarity score. -/
structure QueryResult where
  chunk : StoredChunk
  score : ℚ
deriving DecidableEq

/-- Boolean lexicographic comparison step: on equal keys defer to `rest`,
otherwise order by the key. -/
def lexLE {α : Type} [LinearOrder α] (x y : α) (rest : Bool) : Bool :=
  if x = y then rest else decide (x ≤ y)

/-- Modelled from the spec: the deterministic tie order on chunks with
equal scores — earlier ingestion timestamp, then document id, then
ordinal. -/
def tieLE (a b : StoredChunk) : Bool :=
  lexLE a.timestamp b.timestamp
    (lexLE a.document_id b.document_id (decide (a.ordinal ≤ b.ordinal)))

/-- Modelled from the spec: the ranking order on query results —
descending by score, ties resolved by `tieLE`. -/
def resLE (a b : QueryResult) : Bool :=
  lexLE b.score a.score (tieLE a.chunk b.chunk)

/-- The ranking order as a relation, for sorting. -/
def ResOrder (a b : QueryResult) : Prop := resLE a b = true

instance : DecidableRel ResOrder :=
  fun a b => inferInstanceAs (Decidable (resLE a b = true))

theorem lexLE_total {α : Type} [LinearOrder α] (x y : α) (r1 r2 : Bool)
    (h : r1 = true ∨ r2 = true) :
    lexLE x y r1 = true ∨ lexLE y x r2 = true := by
  by_cases hxy : x = y
  · subst hxy
    simpa [lexLE] using h
  · have hyx : ¬ y = x := fun e => hxy e.symm
    simp only [lexLE, if_neg hxy, if_neg hyx, decide_eq_true_eq]
    exact le_total x y

theorem lexLE_trans {α : Type} [LinearOrder α] {x y z : α} {r1 r2 r3 : Bool}
    (hr : r1 = true → r2 = true → r3 = true) :
    lexLE x y r1 = true → lexLE y z r2 = true → lexLE x z r3 = true := by
  intro h1 h2
  by_cases hxy : x = y <;> by_cases hyz : y = z
  · subst hxy
    subst hyz
    simp only [lexLE, if_pos rfl] at h1 h2 ⊢
    exact hr h1 h2
  · subst hxy
    simpa [lexLE, hyz] using h2
  · subst hyz
    simpa [lexLE, hxy] using h1
  · have hx : x ≤ y := by simpa [lexLE, hxy, decide_eq_true_eq] using h1
    have hy : y ≤ z := by simpa [lexLE, hyz, decide_eq_true_eq] using h2
    have hxz : ¬ x = z := by
      intro e
      subst e
      exact hxy (le_antisymm hx hy)
    simp only [lexLE, if_neg hxz, decide_eq_true_eq]
    exact hx.trans hy

theorem tieLE_total (a b : StoredChunk) : tieLE a b = true ∨ tieLE b a = true := by
  unfold tieLE
  apply lexLE_total
  apply lexLE_total
  simp only [decide_eq_true_eq]
  exact Nat.le_total a.ordinal b.ordinal

theorem tieLE_trans (a b c : StoredChunk) :
    tieLE a b = true → tieLE b c = true → tieLE a c = true := by
  unfold tieLE
  apply lexLE_trans
  apply lexLE_trans
  intro h1 h2
  simp only [decide_eq_true_eq] at h1 h2 ⊢
  exact h1.trans h2

theorem resLE_total : ∀ a b : QueryResult, resLE a b = true ∨ resLE b a = true := by
  intro a b
  unfold resLE
  apply lexLE_total
  exact tieLE_total a.chunk b.chunk

theorem resLE_trans :
    ∀ a b c : QueryResult, resLE a b = true → resLE b c = true → resLE a c = true := by
  intro a b c hab hbc
  unfold resLE at hab hbc ⊢
  exact lexLE_trans (fun h1 h2 => tieLE_trans _ _ _ h2 h1) hbc hab

instance : IsTotal QueryResult ResOrder := ⟨resLE_total⟩

instance : IsTrans QueryResult ResOrder := ⟨resLE_trans⟩

theorem ResOrder_score {a b : QueryResult} (h : ResOrder a b) : b.score ≤ a.score := by
  unfold ResOrder resLE lexLE at h
  by_cases hs : b.score = a.score
  · exact le_of_eq hs
  · simp only [if_neg hs, decide_eq_true_eq] at h
    exact h

/-- Modelled from the spec: `query(vector, top_k, similarity_threshold)` —
score every stored chunk against the query vector with the similarity
function `sim` (cosine similarity in the deployed system), keep the chunks
whose score meets or exceeds the threshold, order them descending by score
with the deterministic tie order, and return the first `top_k`. -/
def vectorStoreQuery (sim : List ℚ → List ℚ → ℚ) (store : List StoredChunk)
    (v : List ℚ) (topK : Nat) (thr : ℚ) : List QueryResult :=
  (List.insertionSort ResOrder
    ((store.map fun c => ⟨c, sim v c.vec⟩).filter fun r => decide (thr ≤ r.score))).take topK

/-- Modelled from the spec: `retrieve(query_text, top_k, threshold)` —
embed the query via the Embedding Client and query the Vector Store. -/
def retrieve (sim : List ℚ → List ℚ → ℚ) (embed : String → List ℚ)
    (store : List StoredChunk) (queryText : String) (topK : Nat) (thr : ℚ) :
    List QueryResult :=
  vectorStoreQuery sim store (embed queryText) topK thr

theorem vectorStoreQuery_scores (sim : List ℚ → List ℚ → ℚ) (store : List StoredChunk)
    (v : List ℚ) (topK : Nat) (thr : ℚ) :
    ∀ r ∈ vectorStoreQuery sim store v topK thr, thr ≤ r.score := by
  intro r hr
  unfold vectorStoreQuery at hr
  have h1 := (List.take_sublist topK _).subset hr
  have h2 := (List.perm_insertionSort ResOrder _).subset h1
  rw [List.mem_filter] at h2
  exact of_decide_eq_true h2.2

theorem vectorStoreQuery_sorted (sim : List ℚ → List ℚ → ℚ) (store : List StoredChunk)
    (v : List ℚ) (topK : Nat) (thr : ℚ) :
    (vectorStoreQuery sim store v topK thr).Sorted fun a b => b.score ≤ a.score := by
  unfold vectorStoreQuery
  exact List.Pairwise.imp (fun hab => ResOrder_score hab)
    (List.Pairwise.sublist (List.take_sublist _ _) (List.sorted_insertionSort ResOrder _))

/-- Claim C1: for every query, the Vector Store's query operation (and
hence retrieve) returns only chunks whose similarity score meets or
exceeds the configured threshold, and the returned results are ordered
non-increasing by score. -/
theorem vector_store_query_spec (sim : List ℚ → List ℚ → ℚ) (embed : String → List ℚ)
    (store : List StoredChunk) (v : List ℚ) (q : String) (topK : Nat) (thr : ℚ) :
    (∀ r ∈ vectorStoreQuery sim store v topK thr, thr ≤ r.score) ∧
    (vectorStoreQuery sim store v topK thr).Sorted (fun a b => b.score ≤ a.score) ∧
    (∀ r ∈ retrieve sim embed store q topK thr, thr ≤ r.score) ∧
    (retrieve sim embed store q topK thr).Sorted (fun a b => b.score ≤ a.score) :=
  ⟨vectorStoreQuery_scores sim store v topK thr,
   vectorStoreQuery_sorted sim store v topK thr,
   vectorStoreQuery_scores sim store (embed q) topK thr,
   vectorStoreQuery_sorted sim store (embed q) topK thr⟩

/-- A concrete similarity function for witnesses: score 1 for an exact
vector match and 0 otherwise. -/
def simWitness (v w : List ℚ) : ℚ :=
  if w = v then 1 else 0

/-- A concrete stored chunk for witnesses. -/
def chunkRefunds : StoredChunk :=
  ⟨"doc1", 0, "Refunds are processed within 5 business days.", [1, 0], 0⟩

/-- A second concrete stored chunk for witnesses. -/
def chunkShipping : StoredChunk :=
  ⟨"doc2", 0, "Shipping takes 3 business days.", [0, 1], 1⟩

theorem vector_store_query_spec_witness :
    (1 : ℚ) ≤ (⟨chunkRefunds, 1⟩ : QueryResult).score :=
  (vector_store_query_spec simWitness (fun _ => [1, 0]) [chunkRefunds, chunkShipping]
      [1, 0] "How long do refunds take?" 5 1).1 ⟨chunkRefunds, 1⟩ (by decide)

/-! ## Vector Store writes (modelled from the spec)

The spec's atomic replacement: `upsert_chunks` writes the new chunk set
under a fresh version tag and then flips the per-document current-version
pointer.  A reader resolves the pointer first, so at every intermediate
state it sees either the old chunk set or the new one in full. -/

/-- Modelled from the spec: the persisted layout — one record per chunk,
`(document_id, ordinal, text, vector, version_tag)`. -/
structure VSRecord where
  document_id : String
  ordinal : Nat
  text : String
  vec : List ℚ
  version_tag : Nat
deriving DecidableEq

/-- Modelled from the spec: the Vector Store state — the chunk records,
the per-document current-version pointer map, and the next fresh tag. -/
structure VStore where
  records : List VSRecord
  current : List (String × Nat)
  nextTag : Nat
deriving DecidableEq

/-- The current version tag for a document, if any. -/
def currentTag (s : VStore) (d : String) : Option Nat :=
  (s.current.find? fun p => decide (p.1 = d)).map fun p => p.2

/-- What a reader observes for document `d`: the records of its current
version (empty when the document has no current version). -/
def readChunks (s : VStore) (d : String) : List VSRecord :=
  (currentTag s d).elim [] fun t =>
    s.records.filter fun r => decide (r.document_id = d) && decide (r.version_tag = t)

/-- The records for an input chunk list, ordinals assigned by position,
all under version tag `t`. -/
def toRecords (d : String) (t : Nat) (cs : List (String × List ℚ)) : List VSRecord :=
  cs.enum.map fun p => ⟨d, p.1, p.2.1, p.2.2, t⟩

/-- Modelled from the spec: phase one of `upsert_chunks` — append the new
chunk set under the fresh tag, without touching the pointer map. -/
def writeNewVersion (s : VStore) (d : String) (cs : List (String × List ℚ)) : VStore :=
  ⟨s.records ++ toRecords d s.nextTag cs, s.current, s.nextTag + 1⟩

/-- Modelled from the spec: phase two of `upsert_chunks` — flip the
document's current-version pointer to `t`. -/
def flipCurrent (s : VStore) (d : String) (t : Nat) : VStore :=
  ⟨s.records, (d, t) :: s.current.filter fun p => !(decide (p.1 = d)), s.nextTag⟩

/-- Modelled from the spec: `upsert_chunks(document_id, chunks)` —
atomically replace all chunks for the document via the versioned write. -/
def upsert_chunks (s : VStore) (d : String) (cs : List (String × List ℚ)) : VStore :=
  flipCurrent (writeNewVersion s d cs) d s.nextTag

/-- The observable chunk set of a document: ordinal, text and vector of
each chunk of the current version, in record order. -/
def readSet (s : VStore) (d : String) : List (Nat × String × List ℚ) :=
  (readChunks s d).map fun r => (r.ordinal, r.text, r.vec)

/-- The observable form of an input chunk list. -/
def chunkSet (cs : List (String × List ℚ)) : List (Nat × String × List ℚ) :=
  cs.enum.map fun p => (p.1, p.2.1, p.2.2)

/-- Store well-formedness: every record tag and every pointer tag is
strictly below the fresh tag. -/
def VInv (s : VStore) : Prop :=
  (∀ r ∈ s.records, r.version_tag < s.nextTag) ∧ ∀ p ∈ s.current, p.2 < s.nextTag

theorem mem_toRecords {r : VSRecord} {d : String} {t : Nat}
    {cs : List (String × List ℚ)} (h : r ∈ toRecords d t cs) :
    r.document_id = d ∧ r.version_tag = t := by
  unfold toRecords at h
  rw [List.mem_map] at h
  obtain ⟨p, _, rfl⟩ := h
  exact ⟨rfl, rfl⟩

theorem currentTag_flip_self (s : VStore) (d : String) (t : Nat) :
    currentTag (flipCurrent s d t) d = some t := by
  simp [currentTag, flipCurrent, List.find?]

theorem currentTag_lt {s : VStore} {d : String} {t : Nat} (h : VInv s)
    (hc : currentTag s d = some t) : t < s.nextTag := by
  unfold currentTag at hc
  cases hf : s.current.find? fun p => decide (p.1 = d) with
  | none => rw [hf] at hc; simp at hc
  | some p =>
    rw [hf] at hc
    have hp2 : p.2 = t := by simpa using hc
    exact hp2 ▸ h.2 p (List.mem_of_find?_eq_some hf)

theorem readChunks_upsert (s : VStore) (d : String) (cs : List (String × List ℚ))
    (h : VInv s) :
    readChunks (upsert_chunks s d cs) d = toRecords d s.nextTag cs := by
  unfold upsert_chunks readChunks
  rw [currentTag_flip_self]
  show (s.records ++ toRecords d s.nextTag cs).filter _ = _
  rw [List.filter_append]
  have h1 : (s.records.filter fun r =>
      decide (r.document_id = d) && decide (r.version_tag = s.nextTag)) = [] := by
    rw [List.filter_eq_nil_iff]
    intro r hr
    simp only [Bool.and_eq_true, decide_eq_true_eq, not_and]
    intro _
    exact Nat.ne_of_lt (h.1 r hr)
  have h2 : ((toRecords d s.nextTag cs).filter fun r =>
      decide (r.document_id = d) && decide (r.version_tag = s.nextTag)) =
      toRecords d s.nextTag cs := by
    rw [List.filter_eq_self]
    intro r hr
    obtain ⟨e1, e2⟩ := mem_toRecords hr
    simp [e1, e2]
  rw [h1, h2, List.nil_append]

theorem readChunks_write (s : VStore) (d : String) (cs : List (String × List ℚ))
    (h : VInv s) :
    readChunks (writeNewVersion s d cs) d = readChunks s d := by
  have hcur : currentTag (writeNewVersion s d cs) d = currentTag s d := rfl
  unfold readChunks
  rw [hcur]
  cases hc : currentTag s d with
  | none => rfl
  | some t =>
    show (s.records ++ toRecords d s.nextTag cs).filter _ = s.records.filter _
    rw [List.filter_append]
    have h2 : ((toRecords d s.nextTag cs).filter fun r =>
        decide (r.document_id = d) && decide (r.version_tag = t)) = [] := by
      rw [List.filter_eq_nil_iff]
      intro r hr
      obtain ⟨e1, e2⟩ := mem_toRecords hr
      simp only [Bool.and_eq_true, decide_eq_true_eq, not_and]
      intro _
      rw [e2]
      exact Nat.ne_of_gt (currentTag_lt h hc)
    rw [h2, List.append_nil]

theorem VInv_upsert (s : VStore) (d : String) (cs : List (String × List ℚ))
    (h : VInv s) : VInv (upsert_chunks s d cs) := by
  constructor
  · intro r hr
    simp only [upsert_chunks, flipCurrent, writeNewVersion] at hr ⊢
    rcases List.mem_append.mp hr with h1 | h1
    · exact Nat.lt_succ_of_lt (h.1 r h1)
    · rw [(mem_toRecords h1).2]
      exact Nat.lt_succ_self _
  · intro p hp
    simp only [upsert_chunks, flipCurrent, writeNewVersion] at hp ⊢
    rcases List.mem_cons.mp hp with rfl | h1
    · exact Nat.lt_succ_self _
    · exact Nat.lt_succ_of_lt (h.2 p (List.mem_of_mem_filter h1))

theorem readSet_upsert (s : VStore) (d : String) (cs : List (String × List ℚ))
    (h : VInv s) : readSet (upsert_chunks s d cs) d = chunkSet cs := by
  unfold readSet
  rw [readChunks_upsert s d cs h]
  unfold toRecords chunkSet
  rw [List.map_map]
  rfl

theorem readSet_foldl (d : String) (css : List (List (String × List ℚ))) :
    ∀ (s : VStore), VInv s → ∀ hne : css ≠ [],
      readSet (css.foldl (fun t c => upsert_chunks t d c) s) d =
        chunkSet (css.getLast hne) := by
  induction css with
  | nil => intro s _ hne; exact absurd rfl hne
  | cons c rest ih =>
    intro s h hne
    cases rest with
    | nil =>
      simp only [List.foldl_cons, List.foldl_nil, List.getLast_singleton]
      exact readSet_upsert s d c h
    | cons c2 rest2 =>
      simp only [List.foldl_cons]
      rw [List.getLast_cons (List.cons_ne_nil c2 rest2)]
      exact ih (upsert_chunks s d c) (VInv_upsert s d c h) (List.cons_ne_nil c2 rest2)

/-- Claim C2: for every document id, `upsert_chunks` atomically replaces
the full chunk set — after the upsert a reader sees exactly the new input
set, at the intermediate state (new version written, pointer not yet
flipped) a reader still sees exactly the old set, the pointer map holds
exactly one entry for the document, and re-ingesting any number of times
leaves exactly the latest input's chunk set. -/
theorem upsert_chunks_atomic (s : VStore) (d : String) (cs : List (String × List ℚ))
    (css : List (List (String × List ℚ))) (h : VInv s) (hne : css ≠ []) :
    readSet (upsert_chunks s d cs) d = chunkSet cs ∧
    readSet (writeNewVersion s d cs) d = readSet s d ∧
    ((upsert_chunks s d cs).current.countP fun p => decide (p.1 = d)) = 1 ∧
    readSet (css.foldl (fun t c => upsert_chunks t d c) s) d =
      chunkSet (css.getLast hne) := by
  refine ⟨readSet_upsert s d cs h, ?_, ?_, readSet_foldl d css s h hne⟩
  · unfold readSet
    rw [readChunks_write s d cs h]
  · simp only [upsert_chunks, flipCurrent, writeNewVersion]
    have hz : ((s.current.filter fun p => !(decide (p.1 = d))).countP
        fun p => decide (p.1 = d)) = 0 := by
      rw [List.countP_eq_zero]
      intro p hp
      have := (List.mem_filter.mp hp).2
      simpa using this
    simp [List.countP_cons, hz]

theorem upsert_chunks_atomic_witness :
    readSet (upsert_chunks ⟨[], [], 0⟩ "doc1"
        [("Refunds are processed within 5 business days.", [1, 0])]) "doc1" =
      chunkSet [("Refunds are processed within 5 business days.", [1, 0])] :=
  (upsert_chunks_atomic ⟨[], [], 0⟩ "doc1"
      [("Refunds are processed within 5 business days.", [1, 0])]
      [[("Refunds are processed within 5 business days.", [1, 0])]]
      (by simp [VInv]) (by simp)).1

/-! ## Citation validation (modelled from the spec) -/

/-- A generated response, parsed into plain text runs and citation
markers `[Document N]`. -/
inductive Segment where
  | text (s : String)
  | marker (n : Nat)
deriving DecidableEq

/-- Modelled from the spec: Generation Orchestrator post-processing —
markers in the generated output are validated against the `numSources`
chunks actually supplied; a marker whose 1-based index does not reference
a supplied chunk is stripped, not trusted. -/
def validateCitations (numSources : Nat) (resp : List Segment) : List Segment :=
  resp.filter fun seg =>
    match seg with
    | Segment.text _ => true
    | Segment.marker n => decide (1 ≤ n ∧ n ≤ numSources)

/-- Claim C3: every citation marker surviving post-processing references
a chunk actually supplied in the retrieval context (markers referencing
unsupplied chunks are stripped rather than trusted), and when retrieval
returns an empty result set the processed response contains no citation
marker at all. -/
theorem citations_validated (numSources : Nat) (resp : List Segment) :
    (∀ n, Segment.marker n ∈ validateCitations numSources resp →
      1 ≤ n ∧ n ≤ numSources) ∧
    ∀ seg ∈ validateCitations 0 resp, ∀ n, seg ≠ Segment.marker n := by
  constructor
  · intro n hn
    have := (List.mem_filter.mp hn).2
    simpa using this
  · intro seg hs n he
    subst he
    have := (List.mem_filter.mp hs).2
    simp only [decide_eq_true_eq] at this
    omega

theorem citations_validated_witness : 1 ≤ 1 ∧ 1 ≤ 2 :=
  (citations_validated 2
      [Segment.text "Refunds are processed within 5 business days ",
       Segment.marker 1, Segment.marker 7]).1 1 (by decide)
